import Mathlib

/-!
Verification of the qc-v2 log-ingestion core (src/parse_logs.h, src/file_watcher.c).

Shallow embedding conventions:
* C++ `std::string` values are modelled as `List Char`.
* `std::chrono::system_clock::time_point` and `::duration` are modelled as `Int`
  (a signed tick count; all arithmetic in the source is exact integer arithmetic).
* `std::map` / `std::unordered_map` are modelled as association lists with
  find-or-insert (`operator[]`) semantics; new keys are appended at the end.
* `std::istringstream` extraction (`ss >> str`) is modelled by `readTok`, which
  skips whitespace, reads a maximal non-whitespace run and reports whether the
  extraction consumed the stream to its end (the eofbit observed by `ss.eof()`).
* warnings/errors printed to cout/cerr are modelled as an output list of `Warn`
  values so that properties about logged warnings are statable.
-/

/-- C++ `uuid_t`: two 64-bit halves (values kept below 2^64 explicitly). -/
structure uuid_t where
  first : Nat
  second : Nat
deriving DecidableEq

/-- `play_session`: pair of join time (time point) and play time (duration). -/
abbrev play_session := Int × Int

/-- `playtime_info`: pair of play sessions and total play time (duration). -/
abbrev playtime_info := List play_session × Int

/-- value type of `log_data_t`: pair of display-name history and playtime info. -/
abbrev log_entry := List (List Char) × playtime_info

/-- `log_data_t`: map from uuid to (names, playtime info); the C++ `std::map`
is modelled as an association list (claims proved here do not concern key order). -/
abbrev log_data_t := List (uuid_t × log_entry)

/-- `detail::single_player_info`. -/
structure single_player_info where
  uuid : Option uuid_t := none
  join_time : Option Int := none
deriving DecidableEq

/-- `parse_ctx_t`. -/
structure parse_ctx_t where
  cur_filename : List Char := []
  date_tp : Int := 0
  line : Nat := 0
  player_info : List (List Char × single_player_info) := []
  server_stopped : Bool := false
deriving DecidableEq

/-- `line_parse_results`. -/
structure line_parse_results where
  read_valid_line : Bool
  player_join_left : Bool
deriving DecidableEq

/-- One value per cout/cerr message site in parse_logs.h (payload: the names
interpolated into the message). -/
inductive Warn where
  | never_left (name : List Char)
  | uuid_not_found_join (name : List Char)
  | joined_multiple (name : List Char)
  | uuid_not_found_leave (name : List Char)
  | join_time_not_found (name : List Char)
  | uuid_parse_failed (text name : List Char)
deriving DecidableEq

/-- Association-list find-or-default, mirroring a read through `operator[]`. -/
def lookupD {κ ν : Type} [DecidableEq κ] (m : List (κ × ν)) (k : κ) (d : ν) : ν :=
  match m with
  | [] => d
  | (k2, v) :: rest => if k2 = k then v else lookupD rest k d

/-- Association-list insert-or-update, mirroring a write through `operator[]`:
the first entry with the key is updated in place, otherwise a fresh
default-constructed entry is appended and updated. -/
def upsert {κ ν : Type} [DecidableEq κ] (m : List (κ × ν)) (k : κ) (d : ν) (f : ν → ν) :
    List (κ × ν) :=
  match m with
  | [] => [(k, f d)]
  | (k2, v) :: rest => if k2 = k then (k2, f v) :: rest else (k2, v) :: upsert rest k d f

/-- default-constructed `log_data_t` mapped value. -/
def dflt_entry : log_entry := ([], ([], 0))

/-- default-constructed `single_player_info`. -/
def dflt_pi : single_player_info := {}

/-- hex_digit_to_uint64 from `detail::parse_uuid`; returns `uint64_t(-1)`
(here 2^64 - 1) for a non-hex character. -/
def hex_digit_to_uint64 (c : Char) : Nat :=
  if '0' ≤ c ∧ c ≤ '9' then c.toNat - '0'.toNat
  else if 'a' ≤ c ∧ c ≤ 'f' then c.toNat - 'a'.toNat + 10
  else if 'A' ≤ c ∧ c ≤ 'F' then c.toNat - 'A'.toNat + 10
  else 18446744073709551615

/-- One 64-bit accumulation loop of `detail::parse_uuid`: each nibble is shifted
by `4 * i` (mod 2^64) and added (mod 2^64); the loop rejects only when the
shifted value equals `uint64_t(-1)` (which, as in the C++, only happens for an
invalid character at shift 0). -/
def uuid_half : List Char → Nat → Nat → Option Nat
  | [], _, acc => some acc
  | c :: rest, i, acc =>
    let val := (hex_digit_to_uint64 c <<< (i * 4)) % 18446744073709551616
    if val = 18446744073709551615 then none
    else uuid_half rest (i + 1) ((acc + val) % 18446744073709551616)

/-- `detail::parse_uuid` (input known to have 36 characters at the call site). -/
def parse_uuid (str : List Char) : Option uuid_t :=
  if str.getD 8 (Char.ofNat 0) = '-' ∧ str.getD 13 (Char.ofNat 0) = '-' ∧
     str.getD 18 (Char.ofNat 0) = '-' ∧ str.getD 23 (Char.ofNat 0) = '-' then
    let arr := str.take 8 ++ (str.drop 9).take 4 ++ (str.drop 14).take 4 ++
      (str.drop 19).take 4 ++ (str.drop 24).take 12
    match uuid_half (arr.take 16) 0 0 with
    | none => none
    | some f =>
      match uuid_half (arr.drop 16) 0 0 with
      | none => none
      | some s => some ⟨f, s⟩
  else none

/-- whitespace characters recognised by `operator>>` in the default locale. -/
def isSpace (c : Char) : Bool :=
  (c == ' ') || (c == '\t') || (c == '\n') || (c == Char.ofNat 11) ||
  (c == Char.ofNat 12) || (c == '\r')

/-- One `ss >> str` extraction: skip whitespace, then read a maximal
non-whitespace run.  `none` models a failed extraction (failbit).  The third
component is true when the extraction ran to the end of the stream (eofbit). -/
def readTok (l : List Char) : Option (List Char × List Char × Bool) :=
  match l.dropWhile isSpace with
  | [] => none
  | c :: rest =>
    let tok := (c :: rest).takeWhile (fun x => !isSpace x)
    let r := (c :: rest).dropWhile (fun x => !isSpace x)
    some (tok, r, r.isEmpty)

/-- strip all trailing CR characters (the `strip_ending_cr` loop). -/
def stripCR (l : List Char) : List Char :=
  (l.reverse.dropWhile (fun c => c == '\r')).reverse

/-- parse one or two decimal digits (a `%2H`-style field of
`std::chrono::from_stream`). -/
def parse2d : List Char → Option (Nat × List Char)
  | [] => none
  | c1 :: rest =>
    if '0' ≤ c1 ∧ c1 ≤ '9' then
      match rest with
      | [] => some (c1.toNat - '0'.toNat, [])
      | c2 :: rest2 =>
        if '0' ≤ c2 ∧ c2 ≤ '9' then
          some ((c1.toNat - '0'.toNat) * 10 + (c2.toNat - '0'.toNat), rest2)
        else some (c1.toNat - '0'.toNat, rest)
    else none

/-- consume one expected literal character. -/
def expectChar (c : Char) : List Char → Option (List Char)
  | [] => none
  | x :: rest => if x = c then some rest else none

/-- `std::chrono::from_stream(ss, "[%2H:%2M:%2S]", time_offset)`: a literal
`[`, a 1-2 digit hour below 24, `:`, minutes below 60, `:`, seconds below 60,
and a literal `]`.  Returns the parsed offset in seconds and the rest of the
line, or `none` when the stream would be left failed. -/
def parse_timestamp (l : List Char) : Option (Int × List Char) :=
  match expectChar '[' l with
  | none => none
  | some l1 =>
  match parse2d l1 with
  | none => none
  | some (h, l2) =>
  if 24 ≤ h then none else
  match expectChar ':' l2 with
  | none => none
  | some l3 =>
  match parse2d l3 with
  | none => none
  | some (m, l4) =>
  if 60 ≤ m then none else
  match expectChar ':' l4 with
  | none => none
  | some l5 =>
  match parse2d l5 with
  | none => none
  | some (s, l6) =>
  if 60 ≤ s then none else
  match expectChar ']' l6 with
  | none => none
  | some l7 => some ((h * 3600 + m * 60 + s : Nat), l7)

/-- The source-tag parse of `parse_line`: `ss >> c` must yield `[`, then
`ss.ignore(max, ']')` consumes through the first `]`, then the very next
character (read with `noskipws`) must be `:`.  Returns the remainder of
the line or `none` when `parse_line` would return `{false, false}`. -/
def read_tag (l : List Char) : Option (List Char) :=
  match l.dropWhile isSpace with
  | [] => none
  | c :: rest =>
    if c = '[' then
      match rest.dropWhile (fun x => !(x == ']')) with
      | [] => none
      | _ :: rest2 =>
        match rest2 with
        | [] => none
        | c2 :: rest3 => if c2 = ':' then some rest3 else none
    else none

/-- The session-recording block shared verbatim by `player_left` and
`detail::clear_all_players`: look up (or default-insert) the uuid's entry,
append the display name when it differs from the last recorded one, append a
play session `(join, leave - join)` and add its duration to the running total. -/
def add_play_session (data : log_data_t) (u : uuid_t) (name : List Char)
    (join leave : Int) : log_data_t :=
  upsert data u dflt_entry (fun e =>
    let names := if e.1 = [] ∨ e.1.getLast? ≠ some name then e.1 ++ [name] else e.1
    let playtime := leave - join
    (names, (e.2.1 ++ [(join, playtime)], e.2.2 + playtime)))

/-- `detail::clear_all_players`, iterating the online map in its stored order:
entries holding both a uuid and a join time are closed at `leave_time` (their
join time is cleared); all other entries are left untouched.  Returns
(whether anyone left, updated map, updated data, warnings). -/
def clear_all_players (file_start_warn : Bool)
    (players : List (List Char × single_player_info)) (data : log_data_t)
    (leave_time : Int) :
    Bool × List (List Char × single_player_info) × log_data_t × List Warn :=
  match players with
  | [] => (false, [], data, [])
  | (name, info) :: rest =>
    match info.uuid, info.join_time with
    | some u, some jt =>
      let data2 := add_play_session data u name jt leave_time
      let w := if file_start_warn then [Warn.never_left name] else []
      let r := clear_all_players file_start_warn rest data2 leave_time
      (true, (name, { uuid := some u, join_time := none }) :: r.2.1, r.2.2.1, w ++ r.2.2.2)
    | u?, jt? =>
      let r := clear_all_players file_start_warn rest data leave_time
      (r.1, (name, { uuid := u?, join_time := jt? }) :: r.2.1, r.2.2.1, r.2.2.2)

/-- the `player_joined` lambda of `parse_line` (also handles the
formerly-known-as variant): default-insert the name, warn when no uuid is on
file or a join time is already present, then overwrite the join time. -/
def do_player_joined (ctx : parse_ctx_t) (name : List Char) (cur_time : Int) :
    parse_ctx_t × List Warn :=
  let info := lookupD ctx.player_info name dflt_pi
  let w1 := if info.uuid.isSome then ([] : List Warn) else [Warn.uuid_not_found_join name]
  let w2 := if info.join_time.isSome then [Warn.joined_multiple name] else []
  let pi2 := upsert ctx.player_info name dflt_pi (fun i => { i with join_time := some cur_time })
  ({ ctx with player_info := pi2 }, w1 ++ w2)

/-- the `player_left` lambda of `parse_line`: `ctx.player_info[player_name]`
default-inserts the name even on the error paths; missing uuid or join time is
an error (store untouched, returns false); otherwise the session is closed via
the shared session-recording block and the join time cleared. -/
def do_player_left (ctx : parse_ctx_t) (data : log_data_t) (name : List Char)
    (cur_time : Int) : Bool × parse_ctx_t × log_data_t × List Warn :=
  let info := lookupD ctx.player_info name dflt_pi
  match info.uuid with
  | none =>
    (false, { ctx with player_info := upsert ctx.player_info name dflt_pi id },
     data, [Warn.uuid_not_found_leave name])
  | some u =>
    match info.join_time with
    | none =>
      (false, { ctx with player_info := upsert ctx.player_info name dflt_pi id },
       data, [Warn.join_time_not_found name])
    | some jt =>
      let pi2 := upsert ctx.player_info name dflt_pi (fun i => { i with join_time := none })
      (true, { ctx with player_info := pi2 },
       add_play_session data u name jt cur_time, [])

/-- The token-matching tail of `parse_line`, starting at `ss >> str1 >> str2`
(after the timestamp, the source tag and the optional clear_before flush).
`pc` is `players_changed` so far and `w0` the warnings already emitted. -/
def parse_body (body : List Char) (cur_time : Int) (ctx : parse_ctx_t)
    (data : log_data_t) (pc : Bool) (w0 : List Warn) :
    line_parse_results × parse_ctx_t × log_data_t × List Warn :=
  match readTok body with
  | none => (⟨true, pc⟩, ctx, data, w0)
  | some (str1, r1, _) =>
  match readTok r1 with
  | none => (⟨true, pc⟩, ctx, data, w0)
  | some (str2, r2, eof2) =>
  if eof2 = true ∧ str1 = "Stopping".toList ∧ str2 = "server".toList then
    let r := clear_all_players false ctx.player_info data cur_time
    (⟨true, pc || r.1⟩,
     { ctx with player_info := r.2.1, server_stopped := true }, r.2.2.1, w0 ++ r.2.2.2)
  else
  match readTok r2 with
  | none => (⟨true, pc⟩, ctx, data, w0)
  | some (str3, r3, eof3) =>
  if ctx.server_stopped then
    if str1 = "Starting".toList ∧ str2 = "minecraft".toList ∧ str3 = "server".toList then
      match readTok r3 with
      | none => (⟨true, pc⟩, ctx, data, w0)
      | some (s1, r4, _) =>
        -- `ss.eof()` after `ss >> str1 >> str2`: either the second extraction
        -- ran to the end, or it failed after hitting the end of the stream.
        let eof_after := match readTok r4 with
          | none => true
          | some (_, _, e) => e
        if eof_after = true ∧ s1 = "version".toList then
          (⟨true, pc⟩, { ctx with server_stopped := false }, data, w0)
        else (⟨true, pc⟩, ctx, data, w0)
    else (⟨true, pc⟩, ctx, data, w0)
  else
  if eof3 = true ∧ str1 = "Stopping".toList ∧ str2 = "the".toList ∧ str3 = "server".toList then
    let r := clear_all_players false ctx.player_info data cur_time
    (⟨true, pc || r.1⟩,
     { ctx with player_info := r.2.1, server_stopped := true }, r.2.2.1, w0 ++ r.2.2.2)
  else
  match readTok r3 with
  | none => (⟨true, pc⟩, ctx, data, w0)
  | some (str4, r4, eof4) =>
  if str1 = "UUID".toList ∧ str2 = "of".toList ∧ str3 = "player".toList then
    match readTok r4 with
    | none => (⟨true, pc⟩, ctx, data, w0)
    | some (s5, r5, _) =>
    match readTok r5 with
    | none => (⟨true, pc⟩, ctx, data, w0)
    | some (s6, _, eof6) =>
      if eof6 = true ∧ s5 = "is".toList ∧ s6.length = 36 then
        match parse_uuid s6 with
        | none => (⟨true, pc⟩, ctx, data, w0 ++ [Warn.uuid_parse_failed s6 str4])
        | some u =>
          let pi2 := upsert ctx.player_info str4 dflt_pi (fun i => { i with uuid := some u })
          (⟨true, pc⟩, { ctx with player_info := pi2 }, data, w0)
      else (⟨true, pc⟩, ctx, data, w0)
  else
  if eof4 = true ∧ str3 = "the".toList ∧ str4 = "game".toList then
    if str2 = "joined".toList then
      let r := do_player_joined ctx str1 cur_time
      (⟨true, true⟩, r.1, data, w0 ++ r.2)
    else if str2 = "left".toList then
      let r := do_player_left ctx data str1 cur_time
      (⟨true, pc || r.1⟩, r.2.1, r.2.2.1, w0 ++ r.2.2.2)
    else (⟨true, pc⟩, ctx, data, w0)
  else
  if str2 = "(formerly".toList ∧ str3 = "known".toList ∧ str4 = "as".toList then
    match readTok r4 with
    | none => (⟨true, pc⟩, ctx, data, w0)
    | some (_, r5, _) =>
    match readTok r5 with
    | none => (⟨true, pc⟩, ctx, data, w0)
    | some (t2, r6, _) =>
    match readTok r6 with
    | none => (⟨true, pc⟩, ctx, data, w0)
    | some (t3, r7, _) =>
    match readTok r7 with
    | none => (⟨true, pc⟩, ctx, data, w0)
    | some (t4, _, eof8) =>
      if eof8 = true ∧ t2 = "joined".toList ∧ t3 = "the".toList ∧ t4 = "game".toList then
        let r := do_player_joined ctx str1 cur_time
        (⟨true, true⟩, r.1, data, w0 ++ r.2)
      else (⟨true, pc⟩, ctx, data, w0)
  else (⟨true, pc⟩, ctx, data, w0)

/-- `parse_line` (with the default `strip_ending_cr = true`): strip trailing
CRs, parse the `[HH:MM:SS]` timestamp and the bracketed source tag (failure of
either returns `{false, false}` with no state change), perform the
`clear_before` flush at this line's instant, then match the tokenized message.
Returns (results, updated context, updated data, warnings). -/
def parse_line (line : List Char) (ctx : parse_ctx_t) (data : log_data_t)
    (clear_before : Bool := false) :
    line_parse_results × parse_ctx_t × log_data_t × List Warn :=
  let line2 := stripCR line
  match parse_timestamp line2 with
  | none => (⟨false, false⟩, ctx, data, [])
  | some (off, rest) =>
  match read_tag rest with
  | none => (⟨false, false⟩, ctx, data, [])
  | some body =>
    let cur_time := ctx.date_tp + off
    if clear_before then
      let r := clear_all_players true ctx.player_info data cur_time
      parse_body body cur_time { ctx with player_info := r.2.1 } r.2.2.1 r.1 r.2.2.2
    else
      parse_body body cur_time ctx data false []

/-- Split on newline characters, keeping every (possibly empty) segment: the
`find('\n', pos)` loop of `parse_lines`. -/
def splitNl : List Char → List (List Char)
  | [] => [[]]
  | c :: rest =>
    if c = '\n' then [] :: splitNl rest
    else
      match splitNl rest with
      | [] => [[c]]
      | seg :: segs => (c :: seg) :: segs

/-- The per-segment loop body of `parse_lines`: feed each segment to
`parse_line` (with `clear_before` defaulted to false), OR-ing the
`player_join_left` flags and accumulating warnings. -/
def parse_lines_go : List (List Char) → parse_ctx_t → log_data_t → Bool → List Warn →
    Bool × parse_ctx_t × log_data_t × List Warn
  | [], ctx, data, pc, ws => (pc, ctx, data, ws)
  | l :: rest, ctx, data, pc, ws =>
    let r := parse_line l ctx data false
    parse_lines_go rest r.2.1 r.2.2.1 (pc || r.1.player_join_left) (ws ++ r.2.2.2)

/-- `parse_lines`: split the buffer on `'\n'` and feed every segment to
`parse_line`.  Returns (whether players joined/left, context, data, warnings). -/
def parse_lines (lines : List Char) (ctx : parse_ctx_t) (data : log_data_t) :
    Bool × parse_ctx_t × log_data_t × List Warn :=
  parse_lines_go (splitNl lines) ctx data false []

/-- Feed a list of lines to `parse_line` one at a time (the batch/backfill
style of ingestion), with `clear_before = false` throughout. -/
def feed_lines : List (List Char) → parse_ctx_t × log_data_t → parse_ctx_t × log_data_t
  | [], st => st
  | l :: rest, st =>
    let r := parse_line l st.1 st.2 false
    feed_lines rest (r.2.1, r.2.2.1)

/-- Join a list of lines into one buffer with single `'\n'` separators (a chunk
whose split points fall only on line boundaries). -/
def join_lines : List (List Char) → List Char
  | [] => []
  | [l] => l
  | l :: rest => l ++ '\n' :: join_lines rest

/-- Feed a list of chunks to `parse_lines` (the incremental-append style of
ingestion); each chunk is a group of whole lines. -/
def feed_chunks : List (List (List Char)) → parse_ctx_t × log_data_t → parse_ctx_t × log_data_t
  | [], st => st
  | c :: rest, st =>
    let r := parse_lines (join_lines c) st.1 st.2
    feed_chunks rest (r.2.1, r.2.2.1)

/-- Run an arbitrary sequence of `parse_line` operations, each with its own
`clear_before` flag (covering both plain lines and rotation flushes). -/
def run_ops : List (List Char × Bool) → parse_ctx_t × log_data_t → parse_ctx_t × log_data_t
  | [], st => st
  | (l, cb) :: rest, st =>
    let r := parse_line l st.1 st.2 cb
    run_ops rest (r.2.1, r.2.2.1)

/-- One historical log file, as the backfill loop of `parse_logs` sees it:
its filename, the day baseline derived from the filename's embedded date
(`get_next_line` parses the leading `YYYY-MM-DD` of the name), and its
non-empty lines in order. -/
structure file_input where
  fname : List Char
  fdate : Int
  flines : List (List Char)

/-- The per-file line loop of `parse_logs`: `ctx.line` follows the reader's
line counter, and `clear_before` is dropped after the first line for which
`parse_line` reports a valid timestamp. -/
def parse_file_lines : List (List Char) → parse_ctx_t → log_data_t → Bool → List Warn →
    parse_ctx_t × log_data_t × Bool × List Warn
  | [], ctx, data, cb, ws => (ctx, data, cb, ws)
  | l :: rest, ctx, data, cb, ws =>
    let ctx2 := { ctx with line := ctx.line + 1 }
    let r := parse_line l ctx2 data cb
    parse_file_lines rest r.2.1 r.2.2.1 (if r.1.read_valid_line then false else cb)
      (ws ++ r.2.2.2)

/-- The backfill loop of `parse_logs` (the `save_ctx` shape that returns data
and context): for each file in order, install its name and day baseline in the
context, request `clear_before` when the baseline equals the previous file's
baseline (same calendar day means a same-day restart), and feed its lines. -/
def parse_files : List file_input → parse_ctx_t → log_data_t → Int → Bool → List Warn →
    parse_ctx_t × log_data_t × List Warn
  | [], ctx, data, _, _, ws => (ctx, data, ws)
  | f :: rest, ctx, data, last_tp, cb, ws =>
    let ctx2 := { ctx with cur_filename := f.fname, date_tp := f.fdate, line := 0 }
    let cb2 := if f.fdate = last_tp then true else cb
    let r := parse_file_lines f.flines ctx2 data cb2 ws
    parse_files rest r.1 r.2.1 f.fdate r.2.2.1 r.2.2.2

/-- the `is_digit` lambda of the filename filter in `parse_logs`. -/
def is_digit (c : Char) : Bool := ('0' ≤ c) && (c ≤ '9')

/-- the `while (is_digit(p_str[ind])) ind++;` scan, counting from the front of
the remaining characters (index 12 onwards). -/
def count_digits : List Char → Nat
  | [] => 0
  | c :: rest => if is_digit c then count_digits rest + 1 else 0

/-- The `std::erase_if` predicate of `parse_logs` that drops files whose names
are not `latest.log` (unless `skip_latest_log`) and do not match
`yyyy-mm-dd-##.log(.gz)`: digits at positions 0-3, 5-6, 8-9 and 11, dashes at
4, 7 and 10, then a (possibly empty) run of further digits from position 12,
then exactly `.log` or `.log.gz`.  Indexing past the end of the name yields
the NUL character, as `std::string::operator[]` does at `size()`. -/
def should_erase (skip_latest_log : Bool) (p_str : List Char) (is_gz : Bool) : Bool :=
  if skip_latest_log = false ∧ p_str = "latest.log".toList then false
  else if ([0, 1, 2, 3, 5, 6, 8, 9, 11].all
      (fun i => is_digit (p_str.getD i (Char.ofNat 0)))) = false then true
  else if ([4, 7, 10].all (fun i => p_str.getD i (Char.ofNat 0) == '-')) = false then true
  else
    let ind := 12 + count_digits (p_str.drop 12)
    decide (p_str.drop ind ≠ (if is_gz then ".log.gz" else ".log").toList)

/-- The watcher-context fields that the event-dispatch logic of
`file_watcher_poll` reads and writes: the pending rename cookie and the
watched filename (a NUL-free name of `filename_size` characters). -/
structure file_watcher_ctx where
  cookie : Nat
  filename : List Char
deriving DecidableEq

/-- One `inotify_event` as `file_watcher_poll` sees it: the mask bits it
inspects, the rename cookie, and the `len` bytes of the name field (the real
name followed by NUL padding, so `name.length` models `event->len`). -/
structure inotify_event_t where
  moved_to : Bool
  moved_from : Bool
  create : Bool
  modify : Bool
  cookie : Nat
  name : List Char
deriving DecidableEq

/-- outcome of one poll dispatch: state 1 (an event for the caller, either a
completed rename carrying the new name, or create/create-by-rename/modify
flags) or state 2 (event filtered, caller should poll again). -/
inductive poll_out where
  | event (ev_create ev_create_moved ev_modify : Bool) (moved_to : Option (List Char))
  | filtered
deriving DecidableEq

/-- the name test of `file_watcher_poll`: `event->len > ctx->filename_size`
and the first `filename_size` bytes of the event name equal the watched name. -/
def watches_name (ctx : file_watcher_ctx) (e : inotify_event_t) : Prop :=
  ctx.filename.length < e.name.length ∧ e.name.take ctx.filename.length = ctx.filename

/-- the completed-rename test of `file_watcher_poll`: a renamed-to whose
cookie equals the pending non-zero cookie. -/
def matching_rename (ctx : file_watcher_ctx) (e : inotify_event_t) : Prop :=
  e.moved_to = true ∧ ctx.cookie ≠ 0 ∧ ctx.cookie = e.cookie

instance (ctx : file_watcher_ctx) (e : inotify_event_t) : Decidable (watches_name ctx e) :=
  inferInstanceAs (Decidable (_ ∧ _))

instance (ctx : file_watcher_ctx) (e : inotify_event_t) : Decidable (matching_rename ctx e) :=
  inferInstanceAs (Decidable (_ ∧ _))

/-- The event-dispatch logic of `file_watcher_poll` (lines 141-186 of
file_watcher.c), applied to one decoded `inotify_event`: a renamed-to whose
cookie matches the pending one is emitted as a completed rename (cookie
cleared); events whose name does not extend the watched filename are filtered
with the cookie untouched; a renamed-from of the watched name stores its
cookie; any other event for the watched name clears the cookie and is emitted
when it carries a relevant mask bit.  `strncmp(event->name, ctx->filename,
filename_size) == 0` is modelled as a prefix comparison (the watched filename
contains no NUL). -/
def file_watcher_poll_event (ctx : file_watcher_ctx) (e : inotify_event_t) :
    file_watcher_ctx × poll_out :=
  if matching_rename ctx e then
    ({ ctx with cookie := 0 },
     poll_out.event false false false (some (e.name.takeWhile (fun c => !(c == Char.ofNat 0)))))
  else
    if ¬ watches_name ctx e then
      (ctx, poll_out.filtered)
    else if e.moved_from then
      ({ ctx with cookie := e.cookie }, poll_out.filtered)
    else
      let ctx2 := { ctx with cookie := 0 }
      if e.create = false ∧ e.moved_to = false ∧ e.modify = false then
        (ctx2, poll_out.filtered)
      else (ctx2, poll_out.event e.create e.moved_to e.modify none)

/-- A fixed timestamped-and-tagged line prefix (timestamp 10:00:00, so the
line's instant is `date_tp + 36000`); what follows the tag is the message. -/
def line_header : List Char := "[10:00:00] [Server thread/INFO]:".toList

/-- the message suffix of a join line, to be appended after a player name. -/
def join_suffix : List Char := " joined the game".toList

/-- the message suffix of a leave line, to be appended after a player name. -/
def leave_suffix : List Char := " left the game".toList

/-- The rotation scenario of the spec: `2024-01-01-1.log` holds a UUID
message and a join at 10:00:00 with no matching leave; `2024-01-01-2.log`
carries the same embedded date (both day baselines are the instant 86400) and
its first line is timestamped 09:00:00 and is neither a join nor a leave. -/
def c2_files : List file_input :=
  [{ fname := "2024-01-01-1.log".toList, fdate := 86400,
     flines :=
      ["[09:59:00] [User Authenticator #1/INFO]: UUID of player Alice is 12345678-1234-1234-1234-123456789abc".toList,
       "[10:00:00] [Server thread/INFO]: Alice joined the game".toList] },
   { fname := "2024-01-01-2.log".toList, fdate := 86400,
     flines := ["[09:00:00] [Server thread/INFO]: Some other message here".toList] }]

/-- a context in the Stopped state with an identity on file for Alice. -/
def c3_ctx_stopped : parse_ctx_t :=
  { player_info := [("Alice".toList, { uuid := some ⟨1, 2⟩, join_time := none })],
    server_stopped := true }

/-- the same context in the Running state. -/
def c3_ctx_running : parse_ctx_t :=
  { player_info := [("Alice".toList, { uuid := some ⟨1, 2⟩, join_time := none })],
    server_stopped := false }

/-- a context where Alice is online (has a join instant) but has no identity
on file, as produced by a join line with no preceding UUID message. -/
def c5_ctx : parse_ctx_t :=
  { player_info := [("Alice".toList, { uuid := none, join_time := some 100 })] }

/-- a context where Alice is online since instant 36000 with identity (1,1):
a leave line stamped earlier than 10:00:00 then closes her session with a
negative duration. -/
def c6_ctx : parse_ctx_t :=
  { player_info := [("Alice".toList, { uuid := some ⟨1, 1⟩, join_time := some 36000 })] }

/-- a watcher context with a pending renamed-from cookie for `latest.log`. -/
def c9_ctx : file_watcher_ctx := { cookie := 5, filename := "latest.log".toList }

/-- a modify notification for an unrelated file (not the watched name, not the
matching renamed-to). -/
def c9_ev_modify : inotify_event_t :=
  { moved_to := false, moved_from := false, create := false, modify := true,
    cookie := 0, name := "other.log".toList ++ [Char.ofNat 0] }

/-- a later renamed-to notification carrying the same cookie as the pending
one. -/
def c9_ev_moved_to : inotify_event_t :=
  { moved_to := true, moved_from := false, create := false, modify := false,
    cookie := 5, name := "2024-01-01-9.log".toList ++ [Char.ofNat 0] }

/-- the documented invariant of one aggregate entry:
`total == sum(sessions[i].duration)`. -/
def entry_inv (e : log_entry) : Prop := e.2.2 = (e.2.1.map Prod.snd).sum

/-- the invariant over the whole aggregate store. -/
def playtime_inv (data : log_data_t) : Prop := ∀ p ∈ data, entry_inv p.2

lemma playtime_inv_upsert (k : uuid_t) (d : log_entry) (f : log_entry → log_entry)
    (hd : entry_inv d) (hf : ∀ e, entry_inv e → entry_inv (f e)) :
    ∀ (m : log_data_t), playtime_inv m → playtime_inv (upsert m k d f) := by
  intro m
  induction m with
  | nil =>
    intro _ p hp
    simp only [upsert, List.mem_singleton] at hp
    subst hp
    exact hf d hd
  | cons a tl ih =>
    intro hm p hp
    obtain ⟨k2, v⟩ := a
    simp only [upsert] at hp
    split at hp
    · rcases List.mem_cons.mp hp with h | h
      · subst h; exact hf v (hm _ (List.mem_cons_self _ _))
      · exact hm _ (List.mem_cons_of_mem _ h)
    · rcases List.mem_cons.mp hp with h | h
      · subst h; exact hm _ (List.mem_cons_self _ _)
      · exact ih (fun q hq => hm q (List.mem_cons_of_mem _ hq)) _ h

lemma playtime_inv_add_play_session (data : log_data_t) (u : uuid_t) (name : List Char)
    (j l : Int) (h : playtime_inv data) :
    playtime_inv (add_play_session data u name j l) := by
  refine playtime_inv_upsert _ _ _ ?_ ?_ _ h
  · simp [entry_inv, dflt_entry]
  · intro e he
    simp only [entry_inv] at he ⊢
    simp [List.map_append, List.sum_append, he]

lemma playtime_inv_clear_all_players (w : Bool) :
    ∀ (players : List (List Char × single_player_info)) (data : log_data_t) (t : Int),
      playtime_inv data → playtime_inv (clear_all_players w players data t).2.2.1 := by
  intro players
  induction players with
  | nil => intro data t h; simpa [clear_all_players] using h
  | cons a tl ih =>
    intro data t h
    obtain ⟨name, info⟩ := a
    cases hu : info.uuid <;> cases hj : info.join_time <;>
      simp only [clear_all_players, hu, hj] <;>
      first
        | exact ih _ _ h
        | exact ih _ _ (playtime_inv_add_play_session _ _ _ _ _ h)

lemma playtime_inv_do_player_left (ctx : parse_ctx_t) (data : log_data_t)
    (name : List Char) (t : Int) (h : playtime_inv data) :
    playtime_inv (do_player_left ctx data name t).2.2.1 := by
  unfold do_player_left
  dsimp only
  cases (lookupD ctx.player_info name dflt_pi).uuid with
  | none => exact h
  | some u =>
    cases (lookupD ctx.player_info name dflt_pi).join_time with
    | none => exact h
    | some jt => exact playtime_inv_add_play_session _ _ _ _ _ h

lemma playtime_inv_parse_body (body : List Char) (cur : Int) (ctx : parse_ctx_t)
    (data : log_data_t) (pc : Bool) (w0 : List Warn) (h : playtime_inv data) :
    playtime_inv (parse_body body cur ctx data pc w0).2.2.1 := by
  unfold parse_body
  dsimp only
  repeat' split
  all_goals first
    | exact h
    | exact playtime_inv_clear_all_players _ _ _ _ h
    | exact playtime_inv_do_player_left _ _ _ _ h

lemma playtime_inv_parse_line (line : List Char) (ctx : parse_ctx_t) (data : log_data_t)
    (cb : Bool) (h : playtime_inv data) :
    playtime_inv (parse_line line ctx data cb).2.2.1 := by
  unfold parse_line
  dsimp only
  repeat' split
  all_goals first
    | exact h
    | exact playtime_inv_parse_body _ _ _ _ _ _ h
    | exact playtime_inv_parse_body _ _ _ _ _ _
        (playtime_inv_clear_all_players _ _ _ _ h)

lemma playtime_inv_run_ops :
    ∀ (ops : List (List Char × Bool)) (st : parse_ctx_t × log_data_t),
      playtime_inv st.2 → playtime_inv (run_ops ops st).2 := by
  intro ops
  induction ops with
  | nil => intro st h; exact h
  | cons a tl ih =>
    intro st h
    exact ih _ (playtime_inv_parse_line a.1 st.1 st.2 a.2 h)

lemma takeWhile_append_all (p : Char → Bool) (l1 l2 : List Char)
    (h : ∀ c ∈ l1, p c = true) :
    (l1 ++ l2).takeWhile p = l1 ++ l2.takeWhile p := by
  induction l1 with
  | nil => simp
  | cons c t ih =>
    simp only [List.cons_append,
      List.takeWhile_cons_of_pos (h c (List.mem_cons_self _ _)), List.cons.injEq, true_and]
    exact ih (fun x hx => h x (List.mem_cons_of_mem _ hx))

lemma dropWhile_append_all (p : Char → Bool) (l1 l2 : List Char)
    (h : ∀ c ∈ l1, p c = true) :
    (l1 ++ l2).dropWhile p = l2.dropWhile p := by
  induction l1 with
  | nil => simp
  | cons c t ih =>
    simp only [List.cons_append, List.dropWhile_cons_of_pos (h c (List.mem_cons_self _ _))]
    exact ih (fun x hx => h x (List.mem_cons_of_mem _ hx))

lemma readTok_cons_space (l : List Char) : readTok (' ' :: l) = readTok l := by
  simp [readTok, List.dropWhile_cons_of_pos, isSpace]

/-- extracting a token followed by a space: the token is returned and the
stream is not exhausted. -/
lemma readTok_space (name rest : List Char) (h1 : name ≠ [])
    (h2 : ∀ c ∈ name, isSpace c = false) :
    readTok (name ++ ' ' :: rest) = some (name, ' ' :: rest, false) := by
  obtain ⟨c, t, rfl⟩ := List.exists_cons_of_ne_nil h1
  have hc : isSpace c = false := h2 c (List.mem_cons_self _ _)
  have hall : ∀ x ∈ c :: t, (fun y => !isSpace y) x = true := by
    intro x hx; simp [h2 x hx]
  unfold readTok
  rw [List.cons_append, List.dropWhile_cons_of_neg (by simp [hc])]
  dsimp only
  rw [← List.cons_append]
  rw [show ((c :: t) ++ ' ' :: rest).takeWhile (fun y => !isSpace y)
        = (c :: t) ++ (' ' :: rest).takeWhile (fun y => !isSpace y) from
      takeWhile_append_all _ _ _ hall,
    show ((c :: t) ++ ' ' :: rest).dropWhile (fun y => !isSpace y)
        = (' ' :: rest).dropWhile (fun y => !isSpace y) from
      dropWhile_append_all _ _ _ hall]
  rw [List.takeWhile_cons_of_neg (by simp [isSpace]), List.dropWhile_cons_of_neg (by simp [isSpace])]
  simp

/-- extracting the last token of the stream: the token is returned and the
eofbit is set. -/
lemma readTok_last (name : List Char) (h1 : name ≠ [])
    (h2 : ∀ c ∈ name, isSpace c = false) :
    readTok name = some (name, [], true) := by
  obtain ⟨c, t, rfl⟩ := List.exists_cons_of_ne_nil h1
  have hc : isSpace c = false := h2 c (List.mem_cons_self _ _)
  have hall : ∀ x ∈ c :: t, (fun y => !isSpace y) x = true := by
    intro x hx; simp [h2 x hx]
  unfold readTok
  rw [List.dropWhile_cons_of_neg (by simp [hc])]
  dsimp only
  rw [show (c :: t).takeWhile (fun y => !isSpace y) = (c :: t) by
      have := takeWhile_append_all (fun y => !isSpace y) (c :: t) [] hall
      simpa using this,
    show (c :: t).dropWhile (fun y => !isSpace y) = [] by
      have := dropWhile_append_all (fun y => !isSpace y) (c :: t) [] hall
      simpa using this]
  simp

lemma stripCR_eq (l : List Char) (h : l.getLast? ≠ some '\r') : stripCR l = l := by
  unfold stripCR
  cases hrev : l.reverse with
  | nil =>
    have : l = [] := by simpa using congrArg List.reverse hrev
    simp [this]
  | cons c t =>
    have hc : (c == '\r') = false := by
      have hl : l.getLast? = some c := by
        rw [← List.head?_reverse, hrev]; rfl
      rw [hl] at h
      simpa using fun hcc => h (by rw [hcc])
    rw [List.dropWhile_cons_of_neg (by simp [hc])]
    rw [← hrev, List.reverse_reverse]

lemma parse_body_leave (name : List Char) (cur : Int) (ctx : parse_ctx_t) (data : log_data_t)
    (h1 : name ≠ []) (h2 : ∀ c ∈ name, isSpace c = false) (hstop : ctx.server_stopped = false) :
    parse_body (' ' :: (name ++ leave_suffix)) cur ctx data false [] =
      (⟨true, (do_player_left ctx data name cur).1⟩,
       (do_player_left ctx data name cur).2.1,
       (do_player_left ctx data name cur).2.2.1,
       (do_player_left ctx data name cur).2.2.2) := by
  have e1 : readTok (' ' :: (name ++ leave_suffix)) = some (name, " left the game".toList, false) := by
    rw [readTok_cons_space]
    rw [show (leave_suffix : List Char) = ' ' :: "left the game".toList from rfl]
    exact readTok_space name _ h1 h2
  have e2 : readTok (" left the game".toList) = some ("left".toList, " the game".toList, false) := by rfl
  have e3 : readTok (" the game".toList) = some ("the".toList, " game".toList, false) := by rfl
  have e4 : readTok (" game".toList) = some ("game".toList, [], true) := by rfl
  unfold parse_body
  simp only [e1, e2, e3, e4, hstop]
  simp

lemma parse_body_join (name : List Char) (cur : Int) (ctx : parse_ctx_t)
    (data : log_data_t) (h1 : name ≠ []) (h2 : ∀ c ∈ name, isSpace c = false)
    (hstop : ctx.server_stopped = false) :
    parse_body (' ' :: (name ++ join_suffix)) cur ctx data false [] =
      (⟨true, true⟩, (do_player_joined ctx name cur).1, data, (do_player_joined ctx name cur).2) := by
  have e1 : readTok (' ' :: (name ++ join_suffix)) = some (name, " joined the game".toList, false) := by
    rw [readTok_cons_space]
    rw [show (join_suffix : List Char) = ' ' :: "joined the game".toList from rfl]
    exact readTok_space name _ h1 h2
  have e2 : readTok (" joined the game".toList) = some ("joined".toList, " the game".toList, false) := by rfl
  have e3 : readTok (" the game".toList) = some ("the".toList, " game".toList, false) := by rfl
  have e4 : readTok (" game".toList) = some ("game".toList, [], true) := by rfl
  unfold parse_body
  simp only [e1, e2, e3, e4, hstop]
  simp

lemma parse_body_join_stopped (name : List Char) (cur : Int) (ctx : parse_ctx_t)
    (data : log_data_t) (h1 : name ≠ []) (h2 : ∀ c ∈ name, isSpace c = false)
    (hstop : ctx.server_stopped = true) :
    parse_body (' ' :: (name ++ join_suffix)) cur ctx data false [] =
      (⟨true, false⟩, ctx, data, []) := by
  have e1 : readTok (' ' :: (name ++ join_suffix)) = some (name, " joined the game".toList, false) := by
    rw [readTok_cons_space]
    rw [show (join_suffix : List Char) = ' ' :: "joined the game".toList from rfl]
    exact readTok_space name _ h1 h2
  have e2 : readTok (" joined the game".toList) = some ("joined".toList, " the game".toList, false) := by rfl
  have e3 : readTok (" the game".toList) = some ("the".toList, " game".toList, false) := by rfl
  unfold parse_body
  simp only [e1, e2, e3, hstop]
  simp

lemma parse_body_leave_stopped (name : List Char) (cur : Int) (ctx : parse_ctx_t)
    (data : log_data_t) (h1 : name ≠ []) (h2 : ∀ c ∈ name, isSpace c = false)
    (hstop : ctx.server_stopped = true) :
    parse_body (' ' :: (name ++ leave_suffix)) cur ctx data false [] =
      (⟨true, false⟩, ctx, data, []) := by
  have e1 : readTok (' ' :: (name ++ leave_suffix)) = some (name, " left the game".toList, false) := by
    rw [readTok_cons_space]
    rw [show (leave_suffix : List Char) = ' ' :: "left the game".toList from rfl]
    exact readTok_space name _ h1 h2
  have e2 : readTok (" left the game".toList) = some ("left".toList, " the game".toList, false) := by rfl
  have e3 : readTok (" the game".toList) = some ("the".toList, " game".toList, false) := by rfl
  unfold parse_body
  simp only [e1, e2, e3, hstop]
  simp

lemma parse_line_header (body : List Char) (ctx : parse_ctx_t) (data : log_data_t)
    (hcr : (line_header ++ body).getLast? ≠ some '\r') :
    parse_line (line_header ++ body) ctx data false =
      parse_body body (ctx.date_tp + 36000) ctx data false [] := by
  unfold parse_line
  dsimp only
  rw [stripCR_eq _ hcr]
  rfl

lemma getLast_msg (name sfx : List Char) (hs : sfx ≠ []) :
    (line_header ++ ' ' :: (name ++ sfx)).getLast? = sfx.getLast? := by
  rw [List.getLast?_append_of_ne_nil _ (by simp),
    show (' ' :: (name ++ sfx) : List Char) = [' '] ++ (name ++ sfx) from rfl,
    List.getLast?_append_of_ne_nil _ (by simp [hs]),
    List.getLast?_append_of_ne_nil _ hs]

lemma lookupD_absent {κ ν : Type} [DecidableEq κ] (m : List (κ × ν)) (k : κ) (d : ν)
    (h : ∀ p ∈ m, p.1 ≠ k) : lookupD m k d = d := by
  induction m with
  | nil => rfl
  | cons a tl ih =>
    simp only [lookupD]
    rw [if_neg (h a (List.mem_cons_self _ _))]
    exact ih (fun p hp => h p (List.mem_cons_of_mem _ hp))

lemma upsert_absent {κ ν : Type} [DecidableEq κ] (m : List (κ × ν)) (k : κ) (d : ν)
    (f : ν → ν) (h : ∀ p ∈ m, p.1 ≠ k) : upsert m k d f = m ++ [(k, f d)] := by
  induction m with
  | nil => rfl
  | cons a tl ih =>
    simp only [upsert]
    rw [if_neg (h a (List.mem_cons_self _ _))]
    rw [ih (fun p hp => h p (List.mem_cons_of_mem _ hp))]
    simp

/-- C1: starting from an empty store, any sequence of `parse_line` calls
(with arbitrary `clear_before` flags, so including the rotation flushes and
the Stopping-server flushes performed through `clear_all_players`) leaves
every entry of the aggregate store with `total` equal to the sum of the
durations of its recorded sessions. -/
theorem playtime_total_invariant (ops : List (List Char × Bool)) (ctx0 : parse_ctx_t) :
    playtime_inv (run_ops ops (ctx0, [])).2 :=
  playtime_inv_run_ops ops (ctx0, []) (by intro p hp; cases hp)

/-- C3 counterexample: in the Stopped state a join line is NOT applied (the
join instant stays empty), while the identical line in the Running state marks
the player online; so join messages are not matched and applied exactly as in
the Running state. -/
theorem stopped_join_counterexample :
    (lookupD ((parse_line (line_header ++ ' ' :: ("Alice".toList ++ join_suffix))
        c3_ctx_stopped [] false).2.1.player_info) ("Alice".toList) dflt_pi).join_time = none
  ∧ (lookupD ((parse_line (line_header ++ ' ' :: ("Alice".toList ++ join_suffix))
        c3_ctx_running [] false).2.1.player_info) ("Alice".toList) dflt_pi).join_time = some 36000
  ∧ (none : Option Int) ≠ some 36000 := by decide

/-- C3 amended: while the parser is Stopped, join and leave lines are still
recognised as timestamped lines but are NOT applied: they leave the context
and the store completely unchanged (the Stopped branch only looks for the
startup message after reading three tokens). -/
theorem stopped_join_leave_inert (name : List Char) (ctx : parse_ctx_t) (data : log_data_t)
    (h1 : name ≠ []) (h2 : ∀ c ∈ name, isSpace c = false)
    (h3 : ctx.server_stopped = true) :
    parse_line (line_header ++ ' ' :: (name ++ join_suffix)) ctx data false =
      (⟨true, false⟩, ctx, data, [])
  ∧ parse_line (line_header ++ ' ' :: (name ++ leave_suffix)) ctx data false =
      (⟨true, false⟩, ctx, data, []) := by
  constructor
  · rw [parse_line_header _ _ _ (by rw [getLast_msg _ _ (by decide)]; decide)]
    exact parse_body_join_stopped name _ ctx data h1 h2 h3
  · rw [parse_line_header _ _ _ (by rw [getLast_msg _ _ (by decide)]; decide)]
    exact parse_body_leave_stopped name _ ctx data h1 h2 h3

/-- witness for the C3 amended theorem at a concrete input. -/
theorem stopped_join_leave_inert_witness :
    parse_line (line_header ++ ' ' :: ("Alice".toList ++ join_suffix))
      c3_ctx_stopped [] false = (⟨true, false⟩, c3_ctx_stopped, [], [])
  ∧ parse_line (line_header ++ ' ' :: ("Alice".toList ++ leave_suffix))
      c3_ctx_stopped [] false = (⟨true, false⟩, c3_ctx_stopped, [], []) :=
  stopped_join_leave_inert ("Alice".toList) c3_ctx_stopped [] (by decide) (by decide) rfl

/-- C4: a `left the game` line for a name with no identity or no join instant
on file leaves the store unchanged, reports a recognised timestamped line (and
no join/leave), and emits a warning; `parse_line` is a total function, so
ingestion cannot crash or abort on this path. -/
theorem leave_without_join_rejected (name : List Char) (ctx : parse_ctx_t) (data : log_data_t)
    (h1 : name ≠ []) (h2 : ∀ c ∈ name, isSpace c = false)
    (h3 : ctx.server_stopped = false)
    (h4 : (lookupD ctx.player_info name dflt_pi).uuid = none ∨
          (lookupD ctx.player_info name dflt_pi).join_time = none) :
    (parse_line (line_header ++ ' ' :: (name ++ leave_suffix)) ctx data false).2.2.1 = data
  ∧ (parse_line (line_header ++ ' ' :: (name ++ leave_suffix)) ctx data false).1 = ⟨true, false⟩
  ∧ (parse_line (line_header ++ ' ' :: (name ++ leave_suffix)) ctx data false).2.2.2 ≠ [] := by
  rw [parse_line_header _ _ _ (by rw [getLast_msg _ _ (by decide)]; decide)]
  rw [parse_body_leave name _ ctx data h1 h2 h3]
  rcases h4 with h4 | h4
  · simp [do_player_left, h4]
  · cases hu : (lookupD ctx.player_info name dflt_pi).uuid with
    | none => simp [do_player_left, hu]
    | some u => simp [do_player_left, hu, h4]

/-- witness for C4 at a concrete input (empty context, name Bob). -/
theorem leave_without_join_rejected_witness :
    (parse_line (line_header ++ ' ' :: ("Bob".toList ++ leave_suffix)) {} [] false).2.2.1 = []
  ∧ (parse_line (line_header ++ ' ' :: ("Bob".toList ++ leave_suffix)) {} [] false).1 = ⟨true, false⟩
  ∧ (parse_line (line_header ++ ' ' :: ("Bob".toList ++ leave_suffix)) {} [] false).2.2.2 ≠ [] :=
  leave_without_join_rejected ("Bob".toList) {} [] (by decide) (by decide) rfl (Or.inl rfl)

/-- C10: a `left the game` line for a name with no entry in the online map
leaves the store unchanged but default-inserts a fresh entry (no identity, no
join instant) for that name into the map, which therefore grows. -/
theorem leave_inserts_entry (name : List Char) (ctx : parse_ctx_t) (data : log_data_t)
    (h1 : name ≠ []) (h2 : ∀ c ∈ name, isSpace c = false)
    (h3 : ctx.server_stopped = false)
    (h4 : ∀ p ∈ ctx.player_info, p.1 ≠ name) :
    (parse_line (line_header ++ ' ' :: (name ++ leave_suffix)) ctx data false).2.2.1 = data
  ∧ (parse_line (line_header ++ ' ' :: (name ++ leave_suffix)) ctx data false).2.1.player_info
      = ctx.player_info ++ [(name, dflt_pi)] := by
  rw [parse_line_header _ _ _ (by rw [getLast_msg _ _ (by decide)]; decide)]
  rw [parse_body_leave name _ ctx data h1 h2 h3]
  unfold do_player_left
  rw [lookupD_absent _ _ _ h4]
  simp [upsert_absent _ _ _ _ h4, dflt_pi]

/-- witness for C10 at a concrete input (empty context, name Carol). -/
theorem leave_inserts_entry_witness :
    (parse_line (line_header ++ ' ' :: ("Carol".toList ++ leave_suffix)) {} [] false).2.2.1 = []
  ∧ (parse_line (line_header ++ ' ' :: ("Carol".toList ++ leave_suffix)) {} [] false).2.1.player_info
      = ([] : List (List Char × single_player_info)) ++ [("Carol".toList, dflt_pi)] :=
  leave_inserts_entry ("Carol".toList) {} [] (by decide) (by decide) rfl (by intro p hp; cases hp)

lemma lookupD_upsert {κ ν : Type} [DecidableEq κ] (m : List (κ × ν)) (k : κ) (d : ν)
    (f : ν → ν) : lookupD (upsert m k d f) k d = f (lookupD m k d) := by
  induction m with
  | nil => simp [upsert, lookupD]
  | cons a tl ih =>
    obtain ⟨k2, v⟩ := a
    by_cases h : k2 = k <;> simp [upsert, lookupD, h, ih]

/-- C5 counterexample: flushing via a `Stopping server` line skips an entry
that has a join instant but no identity on file; the entry retains its join
instant after the flush, contradicting the claim that no entry of the map
retains a join instant. -/
theorem flush_retains_join_counterexample :
    (lookupD ((parse_line ("[11:00:00] [Server thread/INFO]: Stopping server".toList)
        c5_ctx [] false).2.1.player_info) ("Alice".toList) dflt_pi).join_time = some 100
  ∧ (parse_line ("[11:00:00] [Server thread/INFO]: Stopping server".toList)
        c5_ctx [] false).2.1.server_stopped = true
  ∧ some (100 : Int) ≠ none := by decide

/-- C5 amended: a flush closes exactly the entries holding BOTH an identity
and a join instant (their join instant is cleared); an entry with a join
instant but no identity is skipped and keeps its join instant unchanged. -/
theorem clear_all_players_amended (w : Bool)
    (players : List (List Char × single_player_info)) (data : log_data_t) (t : Int) :
    (clear_all_players w players data t).2.1 =
      players.map (fun p =>
        if p.2.uuid.isSome ∧ p.2.join_time.isSome then
          (p.1, { uuid := p.2.uuid, join_time := none })
        else p) := by
  induction players generalizing data with
  | nil => rfl
  | cons a tl ih =>
    obtain ⟨name, info⟩ := a
    cases hu : info.uuid <;> cases hj : info.join_time <;>
      simp [clear_all_players, hu, hj, ih] <;>
      rw [← hu, ← hj]

/-- C6 counterexample: a leave line whose instant (09:00:00) precedes the
recorded join instant (10:00:00) appends a play session with a negative
duration of -3600 seconds. -/
theorem negative_duration_counterexample :
    (parse_line ("[09:00:00] [Server thread/INFO]: Alice left the game".toList)
        c6_ctx [] false).2.2.1 =
      [(⟨1, 1⟩, (["Alice".toList], ([((36000 : Int), (-3600 : Int))], -3600)))]
  ∧ ¬ (0 ≤ (-3600 : Int)) := by decide

/-- C6 amended: every appended play session carries duration exactly
`leave - join` (no clamping), which is non-negative exactly when the closing
instant is not earlier than the join instant. -/
theorem session_duration_amended (data : log_data_t) (u : uuid_t) (name : List Char)
    (j l : Int) :
    (lookupD (add_play_session data u name j l) u dflt_entry).2.1 =
      (lookupD data u dflt_entry).2.1 ++ [(j, l - j)]
  ∧ (0 ≤ l - j ↔ j ≤ l) := by
  constructor
  · unfold add_play_session
    rw [lookupD_upsert]
  · exact Int.sub_nonneg

/-- C2 counterexample: in the rotation scenario the only recorded session is
`(122400, -3600)` — it starts at 10:00:00 of day one (day baseline 86400) but
its duration is minus one hour, not the claimed 23:00:00 (82800 seconds). -/
theorem rotation_flush_counterexample :
    ((parse_files c2_files {} [] 0 false []).2.1.map (fun p => p.2.2.1)) =
      [[((122400 : Int), (-3600 : Int))]]
  ∧ ((-3600 : Int) ≠ 82800) := by decide

/-- C2 amended: the flush-before rule does fire on the first recognized line
of the same-day rotated file, and a warning is logged for the flushed player,
but the session is closed at that line's instant on the SAME day baseline:
it is recorded as `(10:00:00 of day one, duration -01:00:00)`. -/
theorem rotation_flush_amended :
    ((parse_files c2_files {} [] 0 false []).2.1.map (fun p => p.2.2.1)) =
      [[((122400 : Int), (-3600 : Int))]]
  ∧ Warn.never_left ("Alice".toList) ∈ (parse_files c2_files {} [] 0 false []).2.2 := by
  decide

lemma splitNl_no_nl (l : List Char) (h : '\n' ∉ l) : splitNl l = [l] := by
  induction l with
  | nil => rfl
  | cons c t ih =>
    have hc : ¬ c = '\n' := fun e => h (by simp [e])
    simp only [splitNl]
    rw [if_neg hc, ih (fun m => h (List.mem_cons_of_mem _ m))]

lemma splitNl_append (l1 rest : List Char) (h : '\n' ∉ l1) :
    splitNl (l1 ++ '\n' :: rest) = l1 :: splitNl rest := by
  induction l1 with
  | nil => simp [splitNl]
  | cons c t ih =>
    have hc : ¬ c = '\n' := fun e => h (by simp [e])
    simp only [List.cons_append, splitNl, List.append_eq]
    rw [if_neg hc, ih (fun m => h (List.mem_cons_of_mem _ m))]

lemma splitNl_join_lines (chunk : List (List Char)) (h1 : chunk ≠ [])
    (h2 : ∀ l ∈ chunk, '\n' ∉ l) :
    splitNl (join_lines chunk) = chunk := by
  induction chunk with
  | nil => exact absurd rfl h1
  | cons c t ih =>
    cases t with
    | nil => exact splitNl_no_nl c (h2 c (List.mem_cons_self _ _))
    | cons c2 t2 =>
      rw [show join_lines (c :: c2 :: t2) = c ++ '\n' :: join_lines (c2 :: t2) from rfl,
        splitNl_append _ _ (h2 c (List.mem_cons_self _ _)),
        ih (by simp) (fun l hl => h2 l (List.mem_cons_of_mem _ hl))]

lemma parse_lines_go_feed (ls : List (List Char)) :
    ∀ (ctx : parse_ctx_t) (data : log_data_t) (pc : Bool) (ws : List Warn),
      ((parse_lines_go ls ctx data pc ws).2.1, (parse_lines_go ls ctx data pc ws).2.2.1) =
        feed_lines ls (ctx, data) := by
  induction ls with
  | nil => intro ctx data pc ws; rfl
  | cons l t ih =>
    intro ctx data pc ws
    simp only [parse_lines_go, feed_lines]
    exact ih _ _ _ _

lemma feed_lines_append (a b : List (List Char)) :
    ∀ st, feed_lines (a ++ b) st = feed_lines b (feed_lines a st) := by
  induction a with
  | nil => intro st; rfl
  | cons l t ih =>
    intro st
    simp only [List.cons_append, feed_lines]
    exact ih _

/-- C7: feeding a well-formed sequence of lines (no embedded newlines) one
line at a time to `parse_line` and feeding it to `parse_lines` in chunks
whose split points fall only on line boundaries produce the same final
context and the same aggregate store. -/
theorem batch_incremental_equiv :
    ∀ (chunks : List (List (List Char))) (ctx : parse_ctx_t) (data : log_data_t),
      (∀ c ∈ chunks, c ≠ []) → (∀ c ∈ chunks, ∀ l ∈ c, '\n' ∉ l) →
      feed_chunks chunks (ctx, data) = feed_lines chunks.flatten (ctx, data) := by
  intro chunks
  induction chunks with
  | nil => intro ctx data _ _; rfl
  | cons c t ih =>
    intro ctx data h1 h2
    have hr : ((parse_lines (join_lines c) ctx data).2.1,
        (parse_lines (join_lines c) ctx data).2.2.1) = feed_lines c (ctx, data) := by
      unfold parse_lines
      rw [splitNl_join_lines c (h1 c (List.mem_cons_self _ _))
        (h2 c (List.mem_cons_self _ _))]
      exact parse_lines_go_feed c ctx data false []
    show feed_chunks t ((parse_lines (join_lines c) ctx data).2.1,
        (parse_lines (join_lines c) ctx data).2.2.1) = _
    rw [hr, List.flatten_cons, feed_lines_append]
    rcases he : feed_lines c (ctx, data) with ⟨cx, dx⟩
    exact ih cx dx (fun q hq => h1 q (List.mem_cons_of_mem _ hq))
      (fun q hq => h2 q (List.mem_cons_of_mem _ hq))

/-- witness for C7: two chunks against the flat line list, at concrete
inputs. -/
theorem batch_incremental_equiv_witness :
    feed_chunks
        [["[10:00:00] [Server thread/INFO]: Alice joined the game".toList],
         ["[10:05:00] [Server thread/INFO]: Alice left the game".toList,
          "[10:06:00] [Server thread/INFO]: Bob joined the game".toList]]
        (c6_ctx, []) =
      feed_lines
        ["[10:00:00] [Server thread/INFO]: Alice joined the game".toList,
         "[10:05:00] [Server thread/INFO]: Alice left the game".toList,
         "[10:06:00] [Server thread/INFO]: Bob joined the game".toList]
        (c6_ctx, []) := by
  have h := batch_incremental_equiv
    [["[10:00:00] [Server thread/INFO]: Alice joined the game".toList],
     ["[10:05:00] [Server thread/INFO]: Alice left the game".toList,
      "[10:06:00] [Server thread/INFO]: Bob joined the game".toList]]
    c6_ctx [] (by decide) (by decide)
  simpa using h

/-- C8 counterexample: `2024-01-01.log` — a date with NO dash-integer sequence
number — is erased by the filename filter, contradicting the claim that the
no-sequence form is accepted (position 10 must be a dash and position 11 a
digit). -/
theorem undashed_name_counterexample :
    should_erase false ("2024-01-01.log".toList) false = true := by decide

/-- C8 amended: the filter accepts exactly the literal live-tail name
`latest.log` and names of shape `YYYY-MM-DD-N.log(.gz)` where the dash and at
least one sequence digit are MANDATORY; `YYYY-MM-DD.log` without a sequence
number is dropped (silently - the erase predicate prints nothing), and
dropping a name is never fatal.  Every accepted non-`latest.log` name carries
a dash at position 10 and a digit at position 11. -/
theorem log_name_filter_amended :
    should_erase false ("latest.log".toList) false = false
  ∧ should_erase false ("2024-01-01-1.log".toList) false = false
  ∧ should_erase false ("2024-01-01-12.log.gz".toList) true = false
  ∧ should_erase false ("2024-01-01.log".toList) false = true
  ∧ ∀ (name : List Char) (gz : Bool), should_erase false name gz = false →
      name = "latest.log".toList ∨
        (name.getD 10 (Char.ofNat 0) = '-' ∧ is_digit (name.getD 11 (Char.ofNat 0)) = true) := by
  refine ⟨by decide, by decide, by decide, by decide, ?_⟩
  intro name gz h
  unfold should_erase at h
  split_ifs at h with hlat hdig hdash hgz
  all_goals try exact Or.inl hlat.2
  all_goals
    right
    rw [Bool.not_eq_false] at hdig hdash
    simp only [List.all_cons, List.all_nil, Bool.and_eq_true, beq_iff_eq] at hdig hdash
    obtain ⟨_, _, _, _, _, _, _, _, h11, _⟩ := hdig
    obtain ⟨_, _, h10, _⟩ := hdash
    exact ⟨h10, h11⟩

/-- witness for the general part of the C8 amended theorem at a concrete
accepted name. -/
theorem log_name_filter_amended_witness :
    ("2024-01-01-7.log".toList : List Char) = "latest.log".toList ∨
      (("2024-01-01-7.log".toList : List Char).getD 10 (Char.ofNat 0) = '-' ∧
        is_digit (("2024-01-01-7.log".toList : List Char).getD 11 (Char.ofNat 0)) = true) :=
  log_name_filter_amended.2.2.2.2 ("2024-01-01-7.log".toList) false (by decide)

/-- C9 counterexample: with a pending renamed-from cookie (5) for the watched
name, a modify event for a DIFFERENT file is filtered without touching the
cookie, and a later renamed-to carrying cookie 5 is then still correlated with
it and emitted as a completed rename: unrelated events do not reset the
pending cookie. -/
theorem stale_cookie_counterexample :
    (file_watcher_poll_event c9_ctx c9_ev_modify).1.cookie = 5
  ∧ (file_watcher_poll_event c9_ctx c9_ev_modify).2 = poll_out.filtered
  ∧ (5 : Nat) ≠ 0
  ∧ (file_watcher_poll_event (file_watcher_poll_event c9_ctx c9_ev_modify).1
        c9_ev_moved_to).2 =
      poll_out.event false false false (some ("2024-01-01-9.log".toList)) := by decide

/-- C9 amended: the pending cookie is reset by the matching renamed-to and by
any non-renamed-from event whose name matches the watched file; an event for
any OTHER file leaves the pending cookie unchanged (so a stale cookie can
still be correlated with a later renamed-to bearing the same cookie). -/
theorem cookie_reset_amended :
    (∀ (ctx : file_watcher_ctx) (e : inotify_event_t),
        ¬ watches_name ctx e → ¬ matching_rename ctx e →
        (file_watcher_poll_event ctx e).1.cookie = ctx.cookie)
  ∧ (∀ (ctx : file_watcher_ctx) (e : inotify_event_t),
        watches_name ctx e → e.moved_from = false → ¬ matching_rename ctx e →
        (file_watcher_poll_event ctx e).1.cookie = 0) := by
  constructor
  · intro ctx e hw hm
    unfold file_watcher_poll_event
    rw [if_neg hm, if_pos hw]
  · intro ctx e hw hmf hm
    unfold file_watcher_poll_event
    rw [if_neg hm, if_neg (by simpa using hw)]
    rw [hmf]
    split_ifs <;> simp_all

/-- witness for the C9 amended theorem: part one at the concrete unrelated
modify event, part two at a concrete modify event for the watched name. -/
theorem cookie_reset_amended_witness :
    (file_watcher_poll_event c9_ctx c9_ev_modify).1.cookie = c9_ctx.cookie
  ∧ (file_watcher_poll_event c9_ctx
        { moved_to := false, moved_from := false, create := false, modify := true,
          cookie := 0, name := "latest.log".toList ++ [Char.ofNat 0] }).1.cookie = 0 :=
  ⟨cookie_reset_amended.1 c9_ctx c9_ev_modify (by decide) (by decide),
   cookie_reset_amended.2 c9_ctx
     { moved_to := false, moved_from := false, create := false, modify := true,
       cookie := 0, name := "latest.log".toList ++ [Char.ofNat 0] }
     (by decide) rfl (by decide)⟩
